import Mathlib

/-!
Verification of the overlay state/lifecycle engine of the maplibre-layer-control
repository (src/js/main.js and src/js/layersControl.js), as a shallow embedding.

JS objects are modelled as insertion-ordered association lists, JS `Set` as a
duplicate-free list with append-on-add, numbers as `Rat` (the values exercised
by the specification are exact decimals), and `undefined` as `Option.none`.
The JS logical-or defaulting idiom `x || d` on numbers maps `0` (falsy) to the
default, which is modelled explicitly.  Operations that can throw a runtime
`TypeError` are given `Except` result types; operations that cannot throw are
total functions.  `console.warn` calls are modelled as an accumulated list of
warning tags.
-/

/-- Lookup in a JS object modelled as an insertion-ordered association list
(`obj[k]`, yielding `undefined` = `none` for a missing key). -/
def jsGet {κ α : Type} [DecidableEq κ] (m : List (κ × α)) (k : κ) : Option α :=
  match m with
  | [] => none
  | (k', v) :: rest => if k' = k then some v else jsGet rest k

/-- Property write on a JS object: `obj[k] = v` replaces the value of an
existing key in place and otherwise appends the new key at the end,
preserving JS property insertion order. -/
def jsSet {κ α : Type} [DecidableEq κ] (m : List (κ × α)) (k : κ) (v : α) :
    List (κ × α) :=
  match m with
  | [] => [(k, v)]
  | (k', v') :: rest => if k' = k then (k', v) :: rest else (k', v') :: jsSet rest k v

/-- `k in obj` / truthiness of `obj[k]` for record-valued properties. -/
def jsHas {κ α : Type} [DecidableEq κ] (m : List (κ × α)) (k : κ) : Bool :=
  (jsGet m k).isSome

/-- JS `Set.add`: append if not already present. -/
def setAdd (s : List String) (x : String) : List String :=
  if x ∈ s then s else s ++ [x]

/-- JS string defaulting `a || b` where the empty string is falsy and
`undefined`/`null` is `none`. -/
def jsOrStr (a b : Option String) : Option String :=
  match a with
  | some s => if s = "" then b else some s
  | none => b

/-- JS numeric defaulting `v || d`: `undefined` and `0` are falsy and yield the
default. -/
def jsOrNum (v : Option Rat) (d : Rat) : Rat :=
  match v with
  | some x => if x = 0 then d else x
  | none => d

/-- JS numeric defaulting `v || null`: `undefined` and `0` yield `null`. -/
def jsOrNumNull (v : Option Rat) : Option Rat :=
  match v with
  | some x => if x = 0 then none else some x
  | none => none

/-- Per-overlay (and per-group) mutable state record `{visible, opacity}`. -/
structure LayerState where
  visible : Bool
  opacity : Rat
deriving Repr, DecidableEq

/-- A partial `{visible?, opacity?}` record as passed to the store setters and
as found in a persisted record; `Object.assign` merges the present fields. -/
structure LayerPatch where
  visible : Option Bool := none
  opacity : Option Rat := none
deriving Repr, DecidableEq

/-- `Object.assign(cur, p)` on a `{visible, opacity}` record. -/
def assignLayer (cur : LayerState) (p : LayerPatch) : LayerState :=
  { visible := p.visible.getD cur.visible, opacity := p.opacity.getD cur.opacity }

/-- A configured base style (only the fields the engine reads: `id`,
`strategy`, and the style payload, abstracted to a name). -/
structure BaseStyleCfg where
  id : String
  strategy : String := "setStyle"
  styleName : String := ""
deriving Repr, DecidableEq

/-- A configured overlay (the fields read by the state store and the overlay
manager).  `deckLayers` holds the ids of the statically declared deck layer
definitions, `none` when the property is absent; `renderOnClick` records
whether a deferred loader is configured (the loader function itself is passed
to `OverlayManager.show` separately, since the embedding is first-order). -/
structure OverlayCfg where
  id : String
  group : Option String := none
  defaultVisible : Bool := false
  defaultOpacity : Option Rat := none
  renderOnClick : Bool := false
  deckLayers : Option (List String) := none
  minZoomLevel : Option Rat := none
  maxZoomLevel : Option Rat := none
  forcedBaseLayerId : Option String := none
  forcedBearing : Option Rat := none
  forcedPitch : Option Rat := none
  panOnAdd : Bool := false
deriving Repr, DecidableEq

/-- The options object shared by `StateStore`, `OverlayManager` and
`LayersControl`. -/
structure Options where
  baseStyles : List BaseStyleCfg := []
  overlays : List OverlayCfg := []
  defaultBaseId : Option String := none
deriving Repr, DecidableEq

/-- Viewport state `{center, zoom, bearing, pitch}`. -/
structure Viewport where
  center : Option (Rat × Rat) := none
  zoom : Option Rat := none
  bearing : Rat := 0
  pitch : Rat := 0
deriving Repr, DecidableEq

/-- Partial viewport update: a field is `some _` when the property is not
`undefined` (the setters test `!== undefined`). -/
structure ViewportTravel where
  center : Option (Option (Rat × Rat)) := none
  zoom : Option (Option Rat) := none
  bearing : Option Rat := none
  pitch : Option Rat := none
deriving Repr, DecidableEq

/-- The `StateStore` instance state (the `StateManager` of the
layersControl.js variant carries the identical fields). -/
structure Store where
  currentBaseId : Option String
  previousBaseId : Option String
  overlayStates : List (String × LayerState)
  groupStates : List (String × LayerState)
  layerOrder : List String
  viewportState : Viewport
  previousViewportState : Viewport
deriving Repr, DecidableEq

/-- `StateStore._initializeOverlayStates` (main.js:70) and the identical
`StateManager._initializeStates` (main.js:2557): one forEach pass over the
configured overlays building the overlay-state and group-state objects; the
per-overlay opacity is `overlay.defaultOpacity || 1.0`. -/
def initStep (acc : List (String × LayerState) × List (String × LayerState))
    (o : OverlayCfg) :
    List (String × LayerState) × List (String × LayerState) :=
  let os := jsSet acc.1 o.id
    { visible := o.defaultVisible, opacity := jsOrNum o.defaultOpacity 1 }
  let gs :=
    match o.group with
    | some g => if g ≠ "" ∧ ¬ jsHas acc.2 g then
        jsSet acc.2 g { visible := o.defaultVisible, opacity := 1 }
      else acc.2
    | none => acc.2
  (os, gs)

/-- The forEach of `_initializeOverlayStates`, folding `initStep` over the
configured overlays. -/
def initStates (overlays : List OverlayCfg) :
    List (String × LayerState) × List (String × LayerState) :=
  overlays.foldl initStep ([], [])

/-- The constructor-computed state of a `StateStore`, before
`_loadPersistedState` runs (main.js:44). -/
def Store.init (opts : Options) : Store :=
  { currentBaseId := jsOrStr opts.defaultBaseId ((opts.baseStyles.head?).map (·.id)),
    previousBaseId := none,
    overlayStates := (initStates opts.overlays).1,
    groupStates := (initStates opts.overlays).2,
    layerOrder := [],
    viewportState := {},
    previousViewportState := {} }

/-- The parsed durable-storage record (`JSON.parse` result).  Absent JSON
fields are `none`; the restore code tests each for truthiness before use. -/
structure PersistedViewport where
  center : Option (Rat × Rat) := none
  zoom : Option Rat := none
  bearing : Option Rat := none
  pitch : Option Rat := none
deriving Repr, DecidableEq

/-- A persisted top-level record `{baseId, overlays, groups, layerOrder,
viewport}`. -/
structure PersistedRecord where
  baseId : Option String := none
  overlays : Option (List (String × LayerPatch)) := none
  groups : Option (List (String × LayerPatch)) := none
  layerOrder : Option (List String) := none
  viewport : Option PersistedViewport := none
deriving Repr, DecidableEq

/-- Base-style restoration (main.js:95-103): a truthy persisted `baseId` is
adopted only when it still names a configured base style; otherwise the
constructor-computed default is kept and a warning is logged. -/
def restoreBase (opts : Options) (cur : Option String) (recBase : Option String) :
    Option String × List String :=
  match recBase with
  | some b =>
    if b = "" then (cur, [])
    else
      match opts.baseStyles.find? (fun s => s.id = b) with
      | some _ => (some b, [])
      | none => (cur, ["persisted-base-unknown:" ++ b])
  | none => (cur, [])

/-- Overlay-state restoration (main.js:106-115): each persisted overlay id is
merged into the existing entry when one exists, and otherwise dropped with a
warning; no new entries are ever created. -/
def restoreOvStep (acc : List (String × LayerState) × List String)
    (e : String × LayerPatch) : List (String × LayerState) × List String :=
  match jsGet acc.1 e.1 with
  | some cur => (jsSet acc.1 e.1 (assignLayer cur e.2), acc.2)
  | none => (acc.1, acc.2 ++ ["persisted-overlay-unknown:" ++ e.1])

/-- The forEach over `Object.keys(persistedState.overlays)`, folding
`restoreOvStep`. -/
def restoreOverlays (m : List (String × LayerState))
    (entries : List (String × LayerPatch)) :
    List (String × LayerState) × List String :=
  entries.foldl restoreOvStep (m, [])

/-- Group-state restoration (main.js:118-139): like overlays, except that a
group that is still referenced by configured overlays but has no entry is
reinitialized to `{visible:false, opacity:1.0}` before merging. -/
def restoreGroups (opts : Options) (g : List (String × LayerState))
    (entries : List (String × LayerPatch)) :
    List (String × LayerState) × List String :=
  entries.foldl
    (fun acc e =>
      match jsGet acc.1 e.1 with
      | some cur => (jsSet acc.1 e.1 (assignLayer cur e.2), acc.2)
      | none =>
        if (opts.overlays.filter (fun o => o.group = some e.1)).isEmpty then
          (acc.1, acc.2 ++ ["persisted-group-unknown:" ++ e.1])
        else
          (jsSet acc.1 e.1 (assignLayer { visible := false, opacity := 1 } e.2),
           acc.2 ++ ["group-reinit:" ++ e.1]))
    (g, [])

/-- Layer-order restoration (main.js:142-147): the persisted order is filtered
to the ids that still have an overlay-state entry. -/
def restoreOrder (m : List (String × LayerState)) (cur : List String)
    (recOrder : Option (List String)) : List String :=
  match recOrder with
  | some lo => lo.filter (fun id => jsHas m id)
  | none => cur

/-- `StateStore._loadPersistedState` (main.js:86-162) applied to an
already-parsed record.  The function is total: every restore step first checks
that its target entry exists, and in the source the whole body is additionally
wrapped in a try/catch that degrades any throw to a warning. -/
def loadPersisted (opts : Options) (st : Store) (rec : PersistedRecord) :
    Store × List String :=
  let rb := restoreBase opts st.currentBaseId rec.baseId
  let ro :=
    match rec.overlays with
    | some es => restoreOverlays st.overlayStates es
    | none => (st.overlayStates, [])
  let rg :=
    match rec.groups with
    | some es => restoreGroups opts st.groupStates es
    | none => (st.groupStates, [])
  let lo := restoreOrder ro.1 st.layerOrder rec.layerOrder
  let vp :=
    match rec.viewport with
    | some v =>
      { center := v.center, zoom := jsOrNumNull v.zoom,
        bearing := jsOrNum v.bearing 0, pitch := jsOrNum v.pitch 0 : Viewport }
    | none => st.viewportState
  ({ st with currentBaseId := rb.1, overlayStates := ro.1, groupStates := rg.1,
             layerOrder := lo, viewportState := vp },
   rb.2 ++ ro.2 ++ rg.2)

/-- `StateStore` construction: `_initializeOverlayStates` then
`_loadPersistedState`; `persisted = none` models an absent or unconfigured
localStorage record. -/
def Store.new (opts : Options) (persisted : Option PersistedRecord) :
    Store × List String :=
  match persisted with
  | none => (Store.init opts, [])
  | some rec => loadPersisted opts (Store.init opts) rec

/-- `StateStore._addToLayerOrder` (main.js:293): remove any prior occurrence
(`indexOf`/`splice` removes the first one), then push to the end. -/
def addToLayerOrder (l : List String) (id : String) : List String :=
  l.erase id ++ [id]

/-- `StateStore._removeFromLayerOrder` (main.js:300): splice out the first
occurrence, if any. -/
def removeFromLayerOrder (l : List String) (id : String) : List String :=
  l.erase id

/-- `StateStore.setBase` (main.js:191), minus persistence and events. -/
def Store.setBase (st : Store) (baseId : String) : Store :=
  { st with previousBaseId := st.currentBaseId, currentBaseId := some baseId }

/-- `StateStore.setOverlay` (main.js:203).  When the id has no state entry,
`Object.assign(this.overlayStates[overlayId], state)` throws a TypeError
before any field of the store is mutated; that throw is the `.error` case. -/
def Store.setOverlay (st : Store) (overlayId : String) (p : LayerPatch) :
    Except String Store :=
  match jsGet st.overlayStates overlayId with
  | none => .error "TypeError: Object.assign called on undefined"
  | some prev =>
    let st1 := { st with
      overlayStates := jsSet st.overlayStates overlayId (assignLayer prev p) }
    let st2 :=
      match p.visible with
      | none => st1
      | some v =>
        if v ∧ ¬ prev.visible then
          { st1 with layerOrder := addToLayerOrder st1.layerOrder overlayId }
        else if ¬ v ∧ prev.visible then
          { st1 with layerOrder := removeFromLayerOrder st1.layerOrder overlayId }
        else st1
    .ok st2

/-- `StateStore.setGroup` (main.js:232); the same unknown-id TypeError applies. -/
def Store.setGroup (st : Store) (groupId : String) (p : LayerPatch) :
    Except String Store :=
  match jsGet st.groupStates groupId with
  | none => .error "TypeError: Object.assign called on undefined"
  | some prev =>
    .ok { st with groupStates := jsSet st.groupStates groupId (assignLayer prev p) }

/-- `StateStore.setViewport` (main.js:246): merge only the provided fields,
capturing the previous viewport. -/
def Store.setViewport (st : Store) (p : ViewportTravel) : Store :=
  { st with
    previousViewportState := st.viewportState,
    viewportState :=
      { center := p.center.getD st.viewportState.center,
        zoom := p.zoom.getD st.viewportState.zoom,
        bearing := p.bearing.getD st.viewportState.bearing,
        pitch := p.pitch.getD st.viewportState.pitch } }

/-- `StateManager.setOverlayVisibility` (main.js:2468): like `setOverlay`
restricted to the `visible` field; `this.overlayStates[id].visible = visible`
throws a TypeError when the id has no entry. -/
def StateManager.setOverlayVisibility (st : Store) (id : String) (visible : Bool) :
    Except String Store :=
  match jsGet st.overlayStates id with
  | none => .error "TypeError: cannot set properties of undefined"
  | some prev =>
    let st1 := { st with
      overlayStates := jsSet st.overlayStates id { prev with visible := visible } }
    let st2 :=
      if visible ∧ ¬ prev.visible then
        { st1 with layerOrder := addToLayerOrder st1.layerOrder id }
      else if ¬ visible ∧ prev.visible then
        { st1 with layerOrder := removeFromLayerOrder st1.layerOrder id }
      else st1
    .ok st2

/-- `StateManager.reorderLayers` (main.js:2502): replace the layer order with
the caller-supplied sequence. -/
def StateManager.reorderLayers (st : Store) (newOrder : List String) : Store :=
  { st with layerOrder := newOrder }

/-- `LayersControl.bringOverlayToFront` (layersControl.js:388): copy the
order, splice out the first occurrence of the id, push it to the end, and
store the result via `reorderLayers` — with no check that the overlay is
visible. -/
def bringOverlayToFront (st : Store) (id : String) : Store :=
  StateManager.reorderLayers st (st.layerOrder.erase id ++ [id])

/-- `LayersControl.getInitialStyle` (main.js:1751): compute the style the
control would start with, from the persisted record alone. -/
def getInitialStyle (opts : Options) (persisted : Option PersistedRecord) :
    Option String :=
  let persistedBaseId : Option String :=
    match persisted with
    | some rec =>
      match rec.baseId with
      | some b => if b = "" then none else some b
      | none => none
    | none => none
  let targetBaseId :=
    jsOrStr persistedBaseId
      (jsOrStr opts.defaultBaseId ((opts.baseStyles.head?).map (·.id)))
  match targetBaseId with
  | some t =>
    if t = "" then none
    else
      match opts.baseStyles.find? (fun b => b.id = t) with
      | some bs => if bs.strategy = "setStyle" then some bs.styleName else none
      | none => none
  | none => none

/-- Events emitted by the `OverlayManager` (main.js:341). -/
inductive MgrEvent where
  | loading (id : String)
  | success (id : String)
  | error (id : String) (msg : String)
  | zoomfilter (id : String) (filtered : Bool)
deriving Repr, DecidableEq

/-- The `OverlayManager` instance state.  `deckLayers` is the key set of the
deck-layer `Map` (the layer objects themselves live in the external render
surface); `loaderCalls` counts how many times a `renderOnClick` loader has
been invoked; `events` is the emission log. -/
structure MgrState where
  mapAttached : Bool := true
  deckAttached : Bool := true
  currentZoom : Rat := 0
  deckLayers : List String := []
  renderOnClickCache : List (String × List String) := []
  renderOnClickLoading : List String := []
  renderOnClickErrors : List String := []
  zoomFilteredOverlays : List String := []
  loaderCalls : Nat := 0
  events : List MgrEvent := []
deriving Repr, DecidableEq

/-- The observable behaviour of one awaited `renderOnClick(context)` call:
either the promise rejects (the loader threw `Error(msg)`), or it resolves to
a result whose `deckLayers` field is `some` list of layer ids or missing. -/
inductive LoaderResult where
  | throws (msg : String)
  | returns (deckLayers : Option (List String))
deriving Repr, DecidableEq

/-- A loader environment: the result of the `renderOnClick` call for a given
overlay id at a given global invocation count. -/
def LoaderEnv : Type := String → Nat → LoaderResult

/-- `OverlayManager._checkZoomConstraints` (main.js:614): with no map,
`true`; otherwise `false` when `zoom < minZoomLevel` or `zoom >= maxZoomLevel`
(each bound checked only when defined). -/
def checkZoomConstraints (mgr : MgrState) (ov : OverlayCfg) : Bool :=
  if ¬ mgr.mapAttached then true
  else if (match ov.minZoomLevel with
           | some mn => decide (mgr.currentZoom < mn)
           | none => false) then false
  else if (match ov.maxZoomLevel with
           | some mx => decide (mgr.currentZoom ≥ mx)
           | none => false) then false
  else true

/-- `OverlayManager._updateZoomFiltering` (main.js:633): recompute the
constraint, move the id into or out of `zoomFilteredOverlays`, emit
`zoomfilter`, and report whether the overlay should be visible. -/
def updateZoomFiltering (opts : Options) (mgr : MgrState) (overlayId : String) :
    Bool × MgrState :=
  match opts.overlays.find? (fun o => o.id = overlayId) with
  | none => (true, mgr)
  | some ov =>
    let sbv := checkZoomConstraints mgr ov
    (sbv,
     { mgr with
       zoomFilteredOverlays :=
         if sbv then mgr.zoomFilteredOverlays.erase overlayId
         else setAdd mgr.zoomFilteredOverlays overlayId,
       events := mgr.events ++ [.zoomfilter overlayId (¬ sbv)] })

/-- The manager state at the `await overlay.renderOnClick(context)` point of
`show` (main.js:728-756): the stale error flag is cleared, the id is marked
in flight, `loading` is emitted, and the loader has been invoked (counted). -/
def rocBegin (mgr : MgrState) (id : String) : MgrState :=
  { mgr with
    renderOnClickErrors := mgr.renderOnClickErrors.erase id,
    renderOnClickLoading := setAdd mgr.renderOnClickLoading id,
    events := mgr.events ++ [.loading id],
    loaderCalls := mgr.loaderCalls + 1 }

/-- The catch clause of the deferred-load try block (main.js:766-775): clear
the in-flight mark, record the error, and emit `error` with
`error.message || 'renderOnClick failed'`. -/
def rocCatch (mgr : MgrState) (id : String) (msg : String) : MgrState :=
  { mgr with
    renderOnClickLoading := mgr.renderOnClickLoading.erase id,
    renderOnClickErrors := setAdd mgr.renderOnClickErrors id,
    events := mgr.events ++ [.error id (if msg = "" then "renderOnClick failed" else msg)] }

/-- Resumption of `show` after the awaited loader settles (main.js:756-775).
The `.error` case carries the state at the catch clause's `return false`; a
result without `deckLayers` raises inside the try and lands in the same
catch. -/
def rocComplete (mgr : MgrState) (id : String) (res : LoaderResult) :
    Except MgrState MgrState :=
  match res with
  | .returns (some dls) =>
    .ok { mgr with
      renderOnClickCache := jsSet mgr.renderOnClickCache id dls,
      renderOnClickLoading := mgr.renderOnClickLoading.erase id,
      events := mgr.events ++ [.success id] }
  | .returns none =>
    .error (rocCatch mgr id "renderOnClick must return deckLayers")
  | .throws msg =>
    .error (rocCatch mgr id msg)

/-- Outcome of the `renderOnClick` block of `show` (main.js:722-785): either
the block hit a `return false`, or control proceeds with the overlay's
effective `deckLayers` (the cached result when one exists). -/
inductive RocOutcome where
  | abort (mgr : MgrState)
  | proceed (mgr : MgrState) (effLayers : Option (List String))

/-- The `renderOnClick` block of `show`.  A non-deferred overlay passes
through untouched; a cached deferred overlay skips the load; an in-flight id
returns `false` immediately; otherwise the loader is invoked and its result
processed by `rocComplete`. -/
def renderOnClickStep (loader : LoaderEnv) (mgr : MgrState) (ov : OverlayCfg) :
    RocOutcome :=
  if ¬ ov.renderOnClick then .proceed mgr ov.deckLayers
  else
    let loaded : Except MgrState MgrState :=
      if jsHas mgr.renderOnClickCache ov.id then .ok mgr
      else if ov.id ∈ mgr.renderOnClickLoading then .error mgr
      else rocComplete (rocBegin mgr ov.id) ov.id (loader ov.id mgr.loaderCalls)
    match loaded with
    | .error mgr' => .abort mgr'
    | .ok mgr' =>
      match jsGet mgr'.renderOnClickCache ov.id with
      | some dls => .proceed mgr' (some dls)
      | none => .proceed mgr' ov.deckLayers

/-- The spec-level outcome of `show`.  The source returns a boolean: the three
return sites map as `failed` to the `return false` sites, `filtered` to the
early `return true` taken when zoom constraints hide the overlay
(main.js:846-850), and `shown` to the final `return true`. -/
inductive ShowOutcome where
  | shown
  | filtered
  | failed
deriving Repr, DecidableEq

/-- The boolean actually returned by the JS `show`. -/
def ShowOutcome.toBool : ShowOutcome → Bool
  | .shown => true
  | .filtered => true
  | .failed => false

/-- The forced-base-layer block of `show` (main.js:787-801).  The manager's
own `setBase` only drives the external render surface and touches no manager
field; the state store's `setBase` is the state effect modelled here.  Note
that `shouldForceBase` is true whenever `forcedBaseLayerId` is declared, with
`isUserInteraction` only adding to it. -/
def forcedBaseStep (opts : Options) (st : Store) (ov : OverlayCfg)
    (isUser : Bool) : Store :=
  let shouldForceBase := isUser || ov.forcedBaseLayerId.isSome
  match ov.forcedBaseLayerId with
  | some fb =>
    if shouldForceBase ∧ fb ≠ "" then
      match opts.baseStyles.find? (fun b => b.id = fb) with
      | some _ =>
        if st.currentBaseId ≠ some fb then Store.setBase st fb else st
      | none => st
    else st
  | none => st

/-- The forced bearing/pitch block of `show` (main.js:803-827): `map.jumpTo`
is external; the modelled effect is the store's `setViewport` merge. -/
def forcedViewportStep (st : Store) (ov : OverlayCfg) (isUser : Bool) : Store :=
  let hasForced := ov.forcedBearing.isSome || ov.forcedPitch.isSome
  let shouldForceViewport := isUser || hasForced
  if shouldForceViewport ∧ hasForced then
    Store.setViewport st
      { bearing := ov.forcedBearing, pitch := ov.forcedPitch }
  else st

/-- The tail of `show` after the `renderOnClick` block (main.js:787-877):
forced base and viewport overrides, zoom filtering (with the early `filtered`
return), then attachment of the effective deck layers to the render surface
with a `success` emission.  The pan-on-add `setTimeout` callbacks fire only
after `show` has returned and are outside this model. -/
def showTail (opts : Options) (st : Store) (mgr : MgrState) (ov : OverlayCfg)
    (effLayers : Option (List String)) (isUser : Bool) :
    ShowOutcome × Store × MgrState :=
  let st1 := forcedBaseStep opts st ov isUser
  let st2 := forcedViewportStep st1 ov isUser
  let z := updateZoomFiltering opts mgr ov.id
  if ¬ z.1 then (.filtered, st2, z.2)
  else
    let mgr2 :=
      match effLayers with
      | some dls =>
        if z.2.deckAttached then
          { z.2 with
            deckLayers := dls.foldl (fun m d => setAdd m d) z.2.deckLayers,
            events := z.2.events ++ [.success ov.id] }
        else z.2
      | none => z.2
    (.shown, st2, mgr2)

/-- `OverlayManager.show` (main.js:717-877), for the run in which the awaited
deferred loader (if one is invoked) settles before any other call touches the
manager.  `loader` supplies the settlement of each loader invocation. -/
def OverlayManager.show (opts : Options) (loader : LoaderEnv) (st : Store)
    (mgr : MgrState) (overlayId : String) (isUser : Bool) :
    ShowOutcome × Store × MgrState :=
  match opts.overlays.find? (fun o => o.id = overlayId) with
  | none => (.failed, st, mgr)
  | some ov =>
    if ¬ mgr.mapAttached then (.failed, st, mgr)
    else
      match renderOnClickStep loader mgr ov with
      | .abort mgr' => (.failed, st, mgr')
      | .proceed mgr' effLayers => showTail opts st mgr' ov effLayers isUser

/-- `OverlayManager.hide` (main.js:879-904): clear the zoom-filter flag and
detach the overlay's static and cached deferred deck layers; a no-op for an
unknown id or with no map. -/
def OverlayManager.hide (opts : Options) (mgr : MgrState) (overlayId : String) :
    MgrState :=
  match opts.overlays.find? (fun o => o.id = overlayId) with
  | none => mgr
  | some ov =>
    if ¬ mgr.mapAttached then mgr
    else
      let mgr1 := { mgr with
        zoomFilteredOverlays := mgr.zoomFilteredOverlays.erase overlayId }
      let mgr2 :=
        match ov.deckLayers with
        | some dls =>
          { mgr1 with deckLayers := dls.foldl (fun m d => m.erase d) mgr1.deckLayers }
        | none => mgr1
      if ov.renderOnClick then
        match jsGet mgr2.renderOnClickCache overlayId with
        | some dls =>
          { mgr2 with deckLayers := dls.foldl (fun m d => m.erase d) mgr2.deckLayers }
        | none => mgr2
      else mgr2

/-- `LayersControl.toggleOverlay` (main.js:1889-1909): warn and no-op on an
unknown overlay id; otherwise flip (or set) visibility, calling
`OverlayManager.show`/`hide` first and recording the new visibility in the
store only when `show` did not fail.  Reading `currentState.visible` when the
store has no entry for the id, and the store's own `setOverlay`, can throw;
those propagate as `.error`. -/
def LayersControl.toggleOverlay (opts : Options) (loader : LoaderEnv)
    (st : Store) (mgr : MgrState) (overlayId : String) (visible : Option Bool)
    (isUser : Bool) : Except String (Store × MgrState × List String) :=
  match opts.overlays.find? (fun o => o.id = overlayId) with
  | none => .ok (st, mgr, ["overlay-not-found:" ++ overlayId])
  | some _ =>
    let newVisibleE : Except String Bool :=
      match visible with
      | some v => .ok v
      | none =>
        match jsGet st.overlayStates overlayId with
        | some cur => .ok (¬ cur.visible)
        | none => .error "TypeError: cannot read visible of undefined"
    match newVisibleE with
    | .error e => .error e
    | .ok newVisible =>
      if newVisible then
        match OverlayManager.show opts loader st mgr overlayId isUser with
        | (.failed, st1, mgr1) => .ok (st1, mgr1, [])
        | (_, st1, mgr1) =>
          match Store.setOverlay st1 overlayId { visible := some true } with
          | .ok st2 => .ok (st2, mgr1, [])
          | .error e => .error e
      else
        let mgr1 := OverlayManager.hide opts mgr overlayId
        match Store.setOverlay st overlayId { visible := some false } with
        | .ok st2 => .ok (st2, mgr1, [])
        | .error e => .error e

theorem jsGet_jsSet_same {κ α : Type} [DecidableEq κ] (m : List (κ × α))
    (k : κ) (v : α) : jsGet (jsSet m k v) k = some v := by
  induction m with
  | nil => simp [jsSet, jsGet]
  | cons hd tl ih =>
    obtain ⟨k', v'⟩ := hd
    by_cases hk : k' = k
    · simp [jsSet, jsGet, hk]
    · simp [jsSet, jsGet, hk, ih]

theorem jsGet_jsSet_ne {κ α : Type} [DecidableEq κ] (m : List (κ × α))
    (k k' : κ) (v : α) (h : k' ≠ k) : jsGet (jsSet m k v) k' = jsGet m k' := by
  induction m with
  | nil => simp [jsSet, jsGet, Ne.symm h]
  | cons hd tl ih =>
    obtain ⟨k0, v0⟩ := hd
    by_cases hk : k0 = k
    · subst hk
      simp [jsSet, jsGet, Ne.symm h]
    · simp [jsSet, jsGet, hk, ih]

theorem initStates_fst_stable (l : List OverlayCfg) (k : String)
    (h : ∀ p ∈ l, p.id ≠ k) :
    ∀ acc, jsGet (l.foldl initStep acc).1 k = jsGet acc.1 k := by
  induction l with
  | nil => intro acc; rfl
  | cons hd tl ih =>
    intro acc
    rw [List.foldl_cons, ih (fun p hp => h p (List.mem_cons_of_mem _ hp))]
    simp only [initStep]
    exact jsGet_jsSet_ne _ _ _ _ (fun he => h hd (List.mem_cons_self _ _) he.symm)

theorem initStates_fst_mem (l : List OverlayCfg) (o : OverlayCfg)
    (hmem : o ∈ l) (hnodup : (l.map (·.id)).Nodup) :
    ∀ acc, jsGet (l.foldl initStep acc).1 o.id =
      some { visible := o.defaultVisible, opacity := jsOrNum o.defaultOpacity 1 } := by
  induction l with
  | nil => cases hmem
  | cons hd tl ih =>
    have hnd : (∀ x ∈ tl, ¬ x.id = hd.id) ∧ (tl.map (·.id)).Nodup := by
      simpa using hnodup
    intro acc
    rw [List.foldl_cons]
    rcases List.mem_cons.mp hmem with rfl | hmem'
    · rw [initStates_fst_stable tl o.id hnd.1]
      simp only [initStep]
      exact jsGet_jsSet_same _ _ _
    · exact ih hmem' hnd.2 _

/-- C9: For every overlay configured with `defaultOpacity` equal to `0`, the
overlay state created at Store construction has opacity `1.0`, not `0`: the
falsy configured value is replaced by the default through the logical-or in
`_initializeOverlayStates`, so an opacity of exactly zero cannot be expressed
as a default at construction time. -/
theorem initialOpacity_zero_becomes_one (opts : Options) (o : OverlayCfg)
    (hmem : o ∈ opts.overlays)
    (hnodup : (opts.overlays.map (·.id)).Nodup)
    (hzero : o.defaultOpacity = some 0) :
    jsGet (Store.init opts).overlayStates o.id =
      some { visible := o.defaultVisible, opacity := 1 } := by
  have h := initStates_fst_mem opts.overlays o hmem hnodup ([], [])
  simp only [Store.init, initStates]
  rw [h, hzero]
  rfl

/-- Witness for C9 at a concrete configuration: an overlay declared with
`defaultOpacity: 0` starts with opacity `1`. -/
theorem initialOpacity_zero_becomes_one_holds :
    ({ id := "a", defaultOpacity := some 0 : OverlayCfg } ∈
        ({ overlays := [{ id := "a", defaultOpacity := some 0 }] : Options }).overlays) ∧
    jsGet (Store.init { overlays := [{ id := "a", defaultOpacity := some 0 }] }).overlayStates "a" =
      some { visible := false, opacity := 1 } := by
  refine ⟨by decide, ?_⟩
  exact initialOpacity_zero_becomes_one _ { id := "a", defaultOpacity := some 0 }
    (by decide) (by decide) rfl

/-- C10: When the persisted record's `baseId` is no longer among the
configured base styles, the static `getInitialStyle` helper returns `null`
rather than falling back to the configured `defaultBaseId` (whose style is,
by hypothesis, present with the `setStyle` strategy and would be returned if
no record were persisted) — unlike Store restoration, which keeps the
constructor-computed default base id in that situation. -/
theorem getInitialStyle_unknownPersistedBase_null (opts : Options)
    (rec : PersistedRecord) (b d : String) (bs : BaseStyleCfg)
    (hb : rec.baseId = some b) (hbne : b ≠ "")
    (hmiss : opts.baseStyles.find? (fun s => s.id = b) = none)
    (hdef : opts.defaultBaseId = some d) (hdne : d ≠ "")
    (hfound : opts.baseStyles.find? (fun s => s.id = d) = some bs)
    (hstrat : bs.strategy = "setStyle") :
    getInitialStyle opts (some rec) = none ∧
    getInitialStyle opts none = some bs.styleName ∧
    (Store.new opts (some rec)).1.currentBaseId = (Store.init opts).currentBaseId := by
  refine ⟨?_, ?_, ?_⟩
  · simp [getInitialStyle, hb, hbne, jsOrStr, hmiss]
  · simp [getInitialStyle, hdef, jsOrStr, hdne, hfound, hstrat]
  · simp [Store.new, loadPersisted, restoreBase, hb, hbne, hmiss]

/-- Witness for C10 at a concrete configuration and persisted record. -/
theorem getInitialStyle_unknownPersistedBase_null_holds :
    getInitialStyle
      { baseStyles := [{ id := "osm", strategy := "setStyle", styleName := "osm-style" }],
        defaultBaseId := some "osm" }
      (some { baseId := some "gone" }) = none ∧
    (Store.new
      { baseStyles := [{ id := "osm", strategy := "setStyle", styleName := "osm-style" }],
        defaultBaseId := some "osm" }
      (some { baseId := some "gone" })).1.currentBaseId = some "osm" := by
  have h := getInitialStyle_unknownPersistedBase_null
    { baseStyles := [{ id := "osm", strategy := "setStyle", styleName := "osm-style" }],
      defaultBaseId := some "osm" }
    { baseId := some "gone" } "gone" "osm"
    { id := "osm", strategy := "setStyle", styleName := "osm-style" }
    rfl (by decide) (by decide) rfl (by decide) (by decide) rfl
  exact ⟨h.1, h.2.2.trans (by decide)⟩

theorem restoreOverlays_absent_stable (es : List (String × LayerPatch))
    (g : String) :
    ∀ acc, jsGet acc.1 g = none →
      jsGet (es.foldl restoreOvStep acc).1 g = none := by
  induction es with
  | nil => intro acc h; exact h
  | cons e tl ih =>
    intro acc h
    rw [List.foldl_cons]
    refine ih _ ?_
    simp only [restoreOvStep]
    cases hcur : jsGet acc.1 e.1 with
    | none => exact h
    | some cur =>
      have hne : g ≠ e.1 := fun he => by rw [he, hcur] at h; cases h
      simpa [jsGet_jsSet_ne _ _ _ _ hne] using h

theorem restoreOverlays_warn_mono (es : List (String × LayerPatch))
    (w : String) :
    ∀ acc, w ∈ acc.2 → w ∈ (es.foldl restoreOvStep acc).2 := by
  induction es with
  | nil => intro acc h; exact h
  | cons e tl ih =>
    intro acc h
    rw [List.foldl_cons]
    refine ih _ ?_
    simp only [restoreOvStep]
    cases jsGet acc.1 e.1 with
    | none => exact List.mem_append_left _ h
    | some cur => exact h

theorem restoreOverlays_warns (es : List (String × LayerPatch)) (g : String)
    (hg : g ∈ es.map Prod.fst) :
    ∀ acc, jsGet acc.1 g = none →
      ("persisted-overlay-unknown:" ++ g) ∈ (es.foldl restoreOvStep acc).2 := by
  induction es with
  | nil => cases hg
  | cons e tl ih =>
    intro acc h
    rw [List.foldl_cons]
    by_cases he : e.1 = g
    · refine restoreOverlays_warn_mono tl _ _ ?_
      simp [restoreOvStep, he, h]
    · have hg' : g ∈ tl.map Prod.fst := by
        rcases List.mem_map.mp hg with ⟨p, hp, hpe⟩
        rcases List.mem_cons.mp hp with rfl | hp'
        · exact absurd hpe he
        · exact hpe ▸ List.mem_map_of_mem _ hp'
      refine ih hg' _ ?_
      simp only [restoreOvStep]
      cases hcur : jsGet acc.1 e.1 with
      | none => exact h
      | some cur =>
        simpa [jsGet_jsSet_ne _ _ _ _ (fun x => he x.symm)] using h

theorem restoreOverlays_fst_stable (es : List (String × LayerPatch))
    (k : String) (h : ∀ e ∈ es, e.1 ≠ k) :
    ∀ acc, jsGet (es.foldl restoreOvStep acc).1 k = jsGet acc.1 k := by
  induction es with
  | nil => intro acc; rfl
  | cons e tl ih =>
    intro acc
    rw [List.foldl_cons, ih (fun p hp => h p (List.mem_cons_of_mem _ hp))]
    simp only [restoreOvStep]
    cases jsGet acc.1 e.1 with
    | none => rfl
    | some cur =>
      exact jsGet_jsSet_ne _ _ _ _ (fun x => h e (List.mem_cons_self _ _) x.symm)

theorem restoreOverlays_applies (es : List (String × LayerPatch))
    (id : String) (p : LayerPatch) (hnodup : (es.map Prod.fst).Nodup)
    (hmem : (id, p) ∈ es) :
    ∀ acc cur, jsGet acc.1 id = some cur →
      jsGet (es.foldl restoreOvStep acc).1 id = some (assignLayer cur p) := by
  induction es with
  | nil => cases hmem
  | cons e tl ih =>
    have hnd : (∀ x : LayerPatch, (e.1, x) ∉ tl) ∧ (tl.map Prod.fst).Nodup := by
      simpa using hnodup
    intro acc cur hcur
    rw [List.foldl_cons]
    rcases List.mem_cons.mp hmem with rfl | hmem'
    · have hstab : ∀ q ∈ tl, q.1 ≠ id := by
        intro q hq hqe
        exact hnd.1 q.2 (by rw [← hqe]; simpa using hq)
      rw [restoreOverlays_fst_stable tl id hstab]
      simp [restoreOvStep, hcur, jsGet_jsSet_same]
    · have hne : e.1 ≠ id := fun he => hnd.1 p (by rw [he]; exact hmem')
      refine ih hnd.2 hmem' _ cur ?_
      simp only [restoreOvStep]
      cases hc : jsGet acc.1 e.1 with
      | none => exact hcur
      | some c => simpa [jsGet_jsSet_ne _ _ _ _ (Ne.symm hne)] using hcur

/-- C4: Constructing a Store from a persisted record that references an
overlay id not present in the current configuration completes (the restore
function is total; in the source the body is additionally wrapped in a
try/catch): the unknown id is absent from the restored overlay state map and
is filtered out of the restored Layer Order, a warning is logged for it, and
the state of every still-configured id is merged in normally. -/
theorem persistedGhost_dropped (opts : Options) (rec : PersistedRecord)
    (g : String) (entries : List (String × LayerPatch))
    (hentries : rec.overlays = some entries)
    (hgmem : g ∈ entries.map Prod.fst)
    (hghost : jsGet (Store.init opts).overlayStates g = none) :
    jsGet (Store.new opts (some rec)).1.overlayStates g = none ∧
    g ∉ (Store.new opts (some rec)).1.layerOrder ∧
    ("persisted-overlay-unknown:" ++ g) ∈ (Store.new opts (some rec)).2 ∧
    (∀ id p cur, (entries.map Prod.fst).Nodup → (id, p) ∈ entries →
      jsGet (Store.init opts).overlayStates id = some cur →
      jsGet (Store.new opts (some rec)).1.overlayStates id =
        some (assignLayer cur p)) := by
  have hos : (Store.new opts (some rec)).1.overlayStates =
      (restoreOverlays (Store.init opts).overlayStates entries).1 := by
    simp [Store.new, loadPersisted, hentries]
  have habs : jsGet (Store.new opts (some rec)).1.overlayStates g = none := by
    rw [hos]
    exact restoreOverlays_absent_stable entries g _ hghost
  refine ⟨habs, ?_, ?_, ?_⟩
  · have hlo : (Store.new opts (some rec)).1.layerOrder =
        restoreOrder (restoreOverlays (Store.init opts).overlayStates entries).1
          (Store.init opts).layerOrder rec.layerOrder := by
      simp [Store.new, loadPersisted, hentries]
    rw [hlo]
    cases hro : rec.layerOrder with
    | none => simp [restoreOrder, Store.init]
    | some lo =>
      simp only [restoreOrder]
      intro hmem
      have := (List.mem_filter.mp hmem).2
      rw [hos] at habs
      simp [jsHas, habs] at this
  · have hw : (Store.new opts (some rec)).2 =
        (restoreBase opts (Store.init opts).currentBaseId rec.baseId).2 ++
        (restoreOverlays (Store.init opts).overlayStates entries).2 ++
        (match rec.groups with
         | some es => restoreGroups opts (Store.init opts).groupStates es
         | none => ((Store.init opts).groupStates, [])).2 := by
      simp [Store.new, loadPersisted, hentries]
    rw [hw]
    refine List.mem_append_left _ (List.mem_append_right _ ?_)
    exact restoreOverlays_warns entries g hgmem _ hghost
  · intro id p cur hnodup hmem hcur
    rw [hos]
    exact restoreOverlays_applies entries id p hnodup hmem _ cur hcur

/-- Witness for C4: a persisted record referencing the unconfigured overlay
id `ghost` (in both its overlay map and its layer order) restores without the
ghost, with a warning, while the configured overlay's persisted state is
applied. -/
theorem persistedGhost_dropped_holds :
    let opts : Options := { overlays := [{ id := "a" }] }
    let rec0 : PersistedRecord :=
      { overlays := some [("a", { visible := some true }), ("ghost", { visible := some true })],
        layerOrder := some ["ghost", "a"] }
    jsGet (Store.new opts (some rec0)).1.overlayStates "ghost" = none ∧
    "ghost" ∉ (Store.new opts (some rec0)).1.layerOrder ∧
    ("persisted-overlay-unknown:" ++ "ghost") ∈ (Store.new opts (some rec0)).2 ∧
    jsGet (Store.new opts (some rec0)).1.overlayStates "a" =
      some { visible := true, opacity := 1 } := by
  have h := persistedGhost_dropped { overlays := [{ id := "a" }] }
    { overlays := some [("a", { visible := some true }), ("ghost", { visible := some true })],
      layerOrder := some ["ghost", "a"] }
    "ghost" [("a", { visible := some true }), ("ghost", { visible := some true })]
    rfl (by decide) (by decide)
  refine ⟨h.1, h.2.1, h.2.2.1, ?_⟩
  have := h.2.2.2 "a" { visible := some true } { visible := false, opacity := 1 }
    (by decide) (by decide) (by decide)
  simpa [assignLayer] using this

theorem setAdd_mem_self (s : List String) (x : String) : x ∈ setAdd s x := by
  by_cases h : x ∈ s <;> simp [setAdd, h]

theorem setAdd_of_not_mem {s : List String} {x : String} (h : x ∉ s) :
    setAdd s x = s ++ [x] := by
  simp [setAdd, h]

theorem erase_append_singleton {l : List String} {x : String} (h : x ∉ l) :
    (l ++ [x]).erase x = l := by
  rw [List.erase_append_right _ h, List.erase_cons_head, List.append_nil]

theorem updateZoomFiltering_fields (opts : Options) (mgr : MgrState)
    (oid : String) :
    ∃ zf ev, (updateZoomFiltering opts mgr oid).2 =
      { mgr with zoomFilteredOverlays := zf, events := ev } := by
  unfold updateZoomFiltering
  cases opts.overlays.find? (fun o => o.id = oid) with
  | none => exact ⟨mgr.zoomFilteredOverlays, mgr.events, rfl⟩
  | some ov => exact ⟨_, _, rfl⟩

theorem showTail_loaderCalls (opts : Options) (st : Store) (mgr : MgrState)
    (ov : OverlayCfg) (eff : Option (List String)) (isUser : Bool) :
    (showTail opts st mgr ov eff isUser).2.2.loaderCalls = mgr.loaderCalls := by
  obtain ⟨zf, ev, hz⟩ := updateZoomFiltering_fields opts mgr ov.id
  by_cases h1 : (updateZoomFiltering opts mgr ov.id).1 <;>
    cases eff <;>
      simp [showTail, h1, hz] <;>
        (try split) <;> simp

theorem show_invokes_loader (opts : Options) (loader : LoaderEnv) (st : Store)
    (mgr : MgrState) (id : String) (ov : OverlayCfg) (isUser : Bool)
    (hov : opts.overlays.find? (fun o => o.id = id) = some ov)
    (hmap : mgr.mapAttached = true)
    (hroc : ov.renderOnClick = true)
    (hcache : jsGet mgr.renderOnClickCache id = none)
    (hnl : id ∉ mgr.renderOnClickLoading) :
    (OverlayManager.show opts loader st mgr id isUser).2.2.loaderCalls =
      mgr.loaderCalls + 1 := by
  have hid : ov.id = id := by simpa using List.find?_some hov
  simp only [OverlayManager.show, hov, hmap, not_true, Bool.false_eq_true,
    if_false]
  have hstep : renderOnClickStep loader mgr ov =
      match rocComplete (rocBegin mgr ov.id) ov.id (loader ov.id mgr.loaderCalls) with
      | .error mgr' => .abort mgr'
      | .ok mgr' =>
        match jsGet mgr'.renderOnClickCache ov.id with
        | some dls => .proceed mgr' (some dls)
        | none => .proceed mgr' ov.deckLayers := by
    simp [renderOnClickStep, hroc, jsHas, hid, hcache, hnl]
  rw [hstep]
  cases hres : loader ov.id mgr.loaderCalls with
  | throws msg => simp [rocComplete, rocCatch, rocBegin]
  | returns dls =>
    cases dls with
    | none => simp [rocComplete, rocCatch, rocBegin]
    | some ls =>
      simp only [rocComplete]
      cases hq : jsGet (jsSet (rocBegin mgr ov.id).renderOnClickCache ov.id ls) ov.id with
      | none => simp [jsGet_jsSet_same] at hq
      | some dls2 =>
        simp only [showTail_loaderCalls]
        simp [rocBegin]

/-- C2: While a deferred load for an overlay id is in flight, a second `show`
call for the same id returns the failed outcome immediately with the manager
(including the loader-invocation count) and store untouched; consequently,
starting one deferred load (which invokes the loader exactly once, moving the
manager to the suspended state `rocBegin`) and issuing a second `show` during
that in-flight period yields exactly one loader invocation. -/
theorem inFlight_secondShow_noDuplicateLoad (opts : Options)
    (loader : LoaderEnv) (st : Store) (mgr : MgrState) (id : String)
    (ov : OverlayCfg) (isUser isUser2 : Bool)
    (hov : opts.overlays.find? (fun o => o.id = id) = some ov)
    (hmap : mgr.mapAttached = true)
    (hroc : ov.renderOnClick = true)
    (hcache : jsGet mgr.renderOnClickCache id = none) :
    (id ∈ mgr.renderOnClickLoading →
      OverlayManager.show opts loader st mgr id isUser = (.failed, st, mgr)) ∧
    (id ∉ mgr.renderOnClickLoading →
      (rocBegin mgr id).loaderCalls = mgr.loaderCalls + 1 ∧
      OverlayManager.show opts loader st (rocBegin mgr id) id isUser2 =
        (.failed, st, rocBegin mgr id)) := by
  have hid : ov.id = id := by simpa using List.find?_some hov
  constructor
  · intro hin
    simp [OverlayManager.show, hov, hmap, renderOnClickStep, hroc, jsHas, hid,
      hcache, hin]
  · intro hnl
    refine ⟨rfl, ?_⟩
    have hcache2 : jsGet (rocBegin mgr id).renderOnClickCache id = none := hcache
    have hin2 : id ∈ (rocBegin mgr id).renderOnClickLoading := by
      simp only [rocBegin]
      exact setAdd_mem_self _ _
    have hmap2 : (rocBegin mgr id).mapAttached = true := hmap
    simp [OverlayManager.show, hov, renderOnClickStep, hroc, jsHas, hid,
      hcache2, hin2, hmap2]

/-- Witness for C2: a fresh manager, one deferred overlay; after the first
`show` reaches its await point the loader has run once, and a second `show`
issued there fails immediately leaving the count at one. -/
theorem inFlight_secondShow_noDuplicateLoad_holds :
    (rocBegin {} "a").loaderCalls = 1 ∧
    OverlayManager.show { overlays := [{ id := "a", renderOnClick := true }] }
      (fun _ _ => .returns (some ["l1"]))
      (Store.init { overlays := [{ id := "a", renderOnClick := true }] })
      (rocBegin {} "a") "a" true =
      (.failed, Store.init { overlays := [{ id := "a", renderOnClick := true }] },
       rocBegin {} "a") := by
  exact (inFlight_secondShow_noDuplicateLoad
    { overlays := [{ id := "a", renderOnClick := true }] }
    (fun _ _ => .returns (some ["l1"]))
    (Store.init { overlays := [{ id := "a", renderOnClick := true }] })
    {} "a" { id := "a", renderOnClick := true } false true
    rfl rfl rfl rfl).2 (by decide)

/-- C1 (amended): After a deferred (`renderOnClick`) loader throws, `show`
returns the failed outcome, the `error` event fires carrying the thrown
error's message, and the overlay id is recorded in the error set (which the
`retryoverlay` action clears); but the failure is not cached against
re-invocation: the cache stays empty and the in-flight mark is cleared, so a
subsequent `show` for the same overlay, without any retry action, invokes the
loader again. -/
theorem deferredLoadError_emits_and_reinvokes (opts : Options)
    (loader : LoaderEnv) (st : Store) (mgr : MgrState) (id msg : String)
    (ov : OverlayCfg) (isUser isUser2 : Bool)
    (hov : opts.overlays.find? (fun o => o.id = id) = some ov)
    (hmap : mgr.mapAttached = true)
    (hroc : ov.renderOnClick = true)
    (hcache : jsGet mgr.renderOnClickCache id = none)
    (hnl : id ∉ mgr.renderOnClickLoading)
    (hthrow : loader id mgr.loaderCalls = .throws msg)
    (hmsg : msg ≠ "") :
    (OverlayManager.show opts loader st mgr id isUser).1 = .failed ∧
    (OverlayManager.show opts loader st mgr id isUser).2.1 = st ∧
    (OverlayManager.show opts loader st mgr id isUser).2.2.events =
      mgr.events ++ [.loading id, .error id msg] ∧
    id ∈ (OverlayManager.show opts loader st mgr id isUser).2.2.renderOnClickErrors ∧
    jsGet (OverlayManager.show opts loader st mgr id isUser).2.2.renderOnClickCache id
      = none ∧
    id ∉ (OverlayManager.show opts loader st mgr id isUser).2.2.renderOnClickLoading ∧
    (OverlayManager.show opts loader st mgr id isUser).2.2.loaderCalls =
      mgr.loaderCalls + 1 ∧
    (OverlayManager.show opts loader
        (OverlayManager.show opts loader st mgr id isUser).2.1
        (OverlayManager.show opts loader st mgr id isUser).2.2
        id isUser2).2.2.loaderCalls = mgr.loaderCalls + 2 := by
  have hid : ov.id = id := by simpa using List.find?_some hov
  have hthrow' : loader ov.id mgr.loaderCalls = .throws msg := by
    rw [hid]; exact hthrow
  have hr : OverlayManager.show opts loader st mgr id isUser =
      (.failed, st, rocCatch (rocBegin mgr id) id msg) := by
    simp [OverlayManager.show, hov, hmap, renderOnClickStep, hroc, jsHas, hid,
      hcache, hnl, hthrow, hthrow', rocComplete]
  have hload3 : (rocCatch (rocBegin mgr id) id msg).renderOnClickLoading =
      mgr.renderOnClickLoading := by
    simp [rocCatch, rocBegin, setAdd_of_not_mem hnl, erase_append_singleton hnl]
  rw [hr]
  refine ⟨rfl, rfl, ?_, ?_, ?_, ?_, ?_, ?_⟩
  · simp [rocCatch, rocBegin, hmsg]
  · simp only [rocCatch]
    exact setAdd_mem_self _ _
  · exact hcache
  · rw [hload3]; exact hnl
  · simp [rocCatch, rocBegin]
  · have hcalls : (rocCatch (rocBegin mgr id) id msg).loaderCalls =
        mgr.loaderCalls + 1 := by simp [rocCatch, rocBegin]
    have h2 := show_invokes_loader opts loader st
      (rocCatch (rocBegin mgr id) id msg) id ov isUser2 hov hmap hroc hcache
      (by rw [hload3]; exact hnl)
    rw [h2, hcalls]

/-- Counterexample to C1 as stated: with a loader that always throws `boom`,
the first `show` fails and emits the error, but the next `show` without any
retry action invokes the loader a second time (the invocation count reaches
2), instead of returning the cached failure without re-invoking the loader. -/
theorem deferredLoadError_rerun_counterexample :
    (OverlayManager.show { overlays := [{ id := "a", renderOnClick := true }] }
        (fun _ _ => .throws "boom")
        (Store.init { overlays := [{ id := "a", renderOnClick := true }] })
        {} "a" true).2.2.loaderCalls = 1 ∧
    (OverlayManager.show { overlays := [{ id := "a", renderOnClick := true }] }
        (fun _ _ => .throws "boom")
        (Store.init { overlays := [{ id := "a", renderOnClick := true }] })
        (OverlayManager.show { overlays := [{ id := "a", renderOnClick := true }] }
          (fun _ _ => .throws "boom")
          (Store.init { overlays := [{ id := "a", renderOnClick := true }] })
          {} "a" true).2.2 "a" true).1 = .failed ∧
    (OverlayManager.show { overlays := [{ id := "a", renderOnClick := true }] }
        (fun _ _ => .throws "boom")
        (Store.init { overlays := [{ id := "a", renderOnClick := true }] })
        (OverlayManager.show { overlays := [{ id := "a", renderOnClick := true }] }
          (fun _ _ => .throws "boom")
          (Store.init { overlays := [{ id := "a", renderOnClick := true }] })
          {} "a" true).2.2 "a" true).2.2.loaderCalls = 2 := by
  refine ⟨by decide, by decide, by decide⟩

/-- Witness for the amended C1 at the same concrete configuration. -/
theorem deferredLoadError_emits_and_reinvokes_holds :
    (OverlayManager.show { overlays := [{ id := "a", renderOnClick := true }] }
        (fun _ _ => .throws "boom")
        (Store.init { overlays := [{ id := "a", renderOnClick := true }] })
        {} "a" true).1 = .failed ∧
    (OverlayManager.show { overlays := [{ id := "a", renderOnClick := true }] }
        (fun _ _ => .throws "boom")
        (Store.init { overlays := [{ id := "a", renderOnClick := true }] })
        {} "a" true).2.2.events = [.loading "a", .error "a" "boom"] := by
  have h := deferredLoadError_emits_and_reinvokes
    { overlays := [{ id := "a", renderOnClick := true }] }
    (fun _ _ => .throws "boom")
    (Store.init { overlays := [{ id := "a", renderOnClick := true }] })
    {} "a" "boom" { id := "a", renderOnClick := true } true false
    rfl rfl rfl rfl (by decide) rfl (by decide)
  exact ⟨h.1, h.2.2.1⟩

/-- C5: For an overlay with both zoom bounds configured, the zoom constraint
is the half-open range `minZoomLevel <= z < maxZoomLevel`; when the current
zoom is outside the range, `show` marks the overlay zoom-filtered, emits
`zoomfilter` with `filtered:true`, attaches no content to the render surface,
and returns the filtered outcome; when inside the range it returns the shown
outcome. -/
theorem zoomRange_halfOpen_filtering (opts : Options) (st : Store)
    (mgr : MgrState) (id : String) (ov : OverlayCfg)
    (hov : opts.overlays.find? (fun o => o.id = id) = some ov)
    (hmap : mgr.mapAttached = true) :
    (∀ mn mx, ov.minZoomLevel = some mn → ov.maxZoomLevel = some mx →
      (checkZoomConstraints mgr ov = true ↔
        mn ≤ mgr.currentZoom ∧ mgr.currentZoom < mx)) ∧
    (∀ loader isUser, ov.renderOnClick = false →
      checkZoomConstraints mgr ov = false →
      (OverlayManager.show opts loader st mgr id isUser).1 = .filtered ∧
      id ∈ (OverlayManager.show opts loader st mgr id isUser).2.2.zoomFilteredOverlays ∧
      MgrEvent.zoomfilter id true ∈
        (OverlayManager.show opts loader st mgr id isUser).2.2.events ∧
      (OverlayManager.show opts loader st mgr id isUser).2.2.deckLayers =
        mgr.deckLayers) ∧
    (∀ loader isUser, ov.renderOnClick = false →
      checkZoomConstraints mgr ov = true →
      (OverlayManager.show opts loader st mgr id isUser).1 = .shown) := by
  have hid : ov.id = id := by simpa using List.find?_some hov
  refine ⟨?_, ?_, ?_⟩
  · intro mn mx hmn hmx
    simp only [checkZoomConstraints, hmap, hmn, hmx, not_true, if_false]
    constructor
    · intro h
      by_cases h1 : mgr.currentZoom < mn
      · simp [h1] at h
      · by_cases h2 : mgr.currentZoom ≥ mx
        · simp [h1, h2] at h
        · exact ⟨le_of_not_lt h1, lt_of_not_le h2⟩
    · intro ⟨h1, h2⟩
      simp [not_lt.mpr h1, not_le.mpr h2]
  · intro loader isUser hroc hout
    have hz : updateZoomFiltering opts mgr id =
        (false, { mgr with
          zoomFilteredOverlays := setAdd mgr.zoomFilteredOverlays id,
          events := mgr.events ++ [.zoomfilter id true] }) := by
      simp [updateZoomFiltering, hov, hout]
    have hshow : OverlayManager.show opts loader st mgr id isUser =
        (.filtered,
         forcedViewportStep (forcedBaseStep opts st ov isUser) ov isUser,
         { mgr with
           zoomFilteredOverlays := setAdd mgr.zoomFilteredOverlays id,
           events := mgr.events ++ [.zoomfilter id true] }) := by
      simp [OverlayManager.show, hov, hmap, renderOnClickStep, hroc, showTail,
        hid, hz]
    rw [hshow]
    exact ⟨rfl, setAdd_mem_self _ _, by simp, rfl⟩
  · intro loader isUser hroc hin
    have hz1 : (updateZoomFiltering opts mgr id).1 = true := by
      simp [updateZoomFiltering, hov, hin]
    simp only [OverlayManager.show, hov, hmap, not_true, Bool.false_eq_true,
      if_false, renderOnClickStep, hroc, Bool.not_eq_true]
    simp only [showTail, hid, hz1]
    cases ov.deckLayers with
    | none => simp [hz1]
    | some dls =>
      by_cases hd : (updateZoomFiltering opts mgr id).2.deckAttached <;>
        simp [hd, hz1]

/-- Witness for C5 at `minZoomLevel = 5`, `maxZoomLevel = 10`: the overlay is
shown at zoom 7 and filtered at zoom 4 and at zoom 10 (upper bound
exclusive), with the zoom-10 `show` run returning `filtered`, marking the
overlay, emitting the event, and attaching nothing. -/
theorem zoomRange_halfOpen_filtering_holds :
    checkZoomConstraints { currentZoom := 7 }
      { id := "a", minZoomLevel := some 5, maxZoomLevel := some 10 } = true ∧
    checkZoomConstraints { currentZoom := 4 }
      { id := "a", minZoomLevel := some 5, maxZoomLevel := some 10 } = false ∧
    checkZoomConstraints { currentZoom := 10 }
      { id := "a", minZoomLevel := some 5, maxZoomLevel := some 10 } = false ∧
    (OverlayManager.show
      { overlays := [{ id := "a", minZoomLevel := some 5, maxZoomLevel := some 10,
                       deckLayers := some ["l1"] }] }
      (fun _ _ => .returns none)
      (Store.init { overlays := [{ id := "a", minZoomLevel := some 5,
                                   maxZoomLevel := some 10,
                                   deckLayers := some ["l1"] }] })
      { currentZoom := 10 } "a" true).1 = .filtered ∧
    (OverlayManager.show
      { overlays := [{ id := "a", minZoomLevel := some 5, maxZoomLevel := some 10,
                       deckLayers := some ["l1"] }] }
      (fun _ _ => .returns none)
      (Store.init { overlays := [{ id := "a", minZoomLevel := some 5,
                                   maxZoomLevel := some 10,
                                   deckLayers := some ["l1"] }] })
      { currentZoom := 10 } "a" true).2.2.deckLayers = [] ∧
    (OverlayManager.show
      { overlays := [{ id := "a", minZoomLevel := some 5, maxZoomLevel := some 10,
                       deckLayers := some ["l1"] }] }
      (fun _ _ => .returns none)
      (Store.init { overlays := [{ id := "a", minZoomLevel := some 5,
                                   maxZoomLevel := some 10,
                                   deckLayers := some ["l1"] }] })
      { currentZoom := 7 } "a" true).1 = .shown := by
  have h10 := zoomRange_halfOpen_filtering
    { overlays := [{ id := "a", minZoomLevel := some 5, maxZoomLevel := some 10,
                     deckLayers := some ["l1"] }] }
    (Store.init { overlays := [{ id := "a", minZoomLevel := some 5,
                                 maxZoomLevel := some 10,
                                 deckLayers := some ["l1"] }] })
    { currentZoom := 10 } "a"
    { id := "a", minZoomLevel := some 5, maxZoomLevel := some 10,
      deckLayers := some ["l1"] } rfl rfl
  have h7 := zoomRange_halfOpen_filtering
    { overlays := [{ id := "a", minZoomLevel := some 5, maxZoomLevel := some 10,
                     deckLayers := some ["l1"] }] }
    (Store.init { overlays := [{ id := "a", minZoomLevel := some 5,
                                 maxZoomLevel := some 10,
                                 deckLayers := some ["l1"] }] })
    { currentZoom := 7 } "a"
    { id := "a", minZoomLevel := some 5, maxZoomLevel := some 10,
      deckLayers := some ["l1"] } rfl rfl
  refine ⟨by decide, by decide, by decide, ?_, ?_, ?_⟩
  · exact (h10.2.1 (fun _ _ => .returns none) true rfl (by decide)).1
  · exact (h10.2.1 (fun _ _ => .returns none) true rfl (by decide)).2.2.2
  · exact h7.2.2 (fun _ _ => .returns none) true rfl (by decide)

/-- Visibility recorded for an id in an overlay-state object (`false` for a
missing entry, matching the truthiness test on `state?.visible`). -/
def visibleIn (m : List (String × LayerState)) (id : String) : Bool :=
  match jsGet m id with
  | some ls => ls.visible
  | none => false

/-- The Layer Order invariant claimed by the specification: no id occurs more
than once, and every id in the order is a currently visible overlay. -/
def goodOrder (st : Store) : Prop :=
  st.layerOrder.Nodup ∧ ∀ id ∈ st.layerOrder, visibleIn st.overlayStates id = true

/-- One public state-store mutation (the operations of §4.2). -/
inductive StoreOp where
  | setOv (id : String) (p : LayerPatch)
  | setBase (id : String)
  | setGrp (id : String) (p : LayerPatch)
  | setVp (p : ViewportTravel)
deriving Repr

/-- Apply one operation.  A setter invoked with an unknown id throws before
mutating anything, so the store observed after the throw is the pre-call
store. -/
def applyStoreOp (st : Store) (op : StoreOp) : Store :=
  match op with
  | .setOv id p =>
    match Store.setOverlay st id p with
    | .ok st' => st'
    | .error _ => st
  | .setBase id => Store.setBase st id
  | .setGrp id p =>
    match Store.setGroup st id p with
    | .ok st' => st'
    | .error _ => st
  | .setVp p => Store.setViewport st p

/-- A sequence of public state-store mutations. -/
def applyStoreOps (st : Store) (ops : List StoreOp) : Store :=
  ops.foldl applyStoreOp st

theorem setOverlay_goodOrder {st st' : Store} {id : String} {p : LayerPatch}
    (h : goodOrder st) (hok : Store.setOverlay st id p = .ok st') :
    goodOrder st' := by
  rcases h with ⟨hnd, hvis⟩
  unfold Store.setOverlay at hok
  cases hprev : jsGet st.overlayStates id with
  | none => simp [hprev] at hok
  | some prev =>
    have hprevvis : id ∈ st.layerOrder → prev.visible = true := by
      intro hmem
      have := hvis id hmem
      simpa [visibleIn, hprev] using this
    simp only [hprev, Except.ok.injEq] at hok
    subst hok
    cases hv : p.visible with
    | none =>
      refine ⟨hnd, ?_⟩
      intro x hx
      by_cases hxid : x = id
      · subst hxid
        simp [visibleIn, jsGet_jsSet_same, assignLayer, hv, hprevvis hx]
      · have := hvis x hx
        simpa [visibleIn, jsGet_jsSet_ne _ _ _ _ hxid] using this
    | some v =>
      simp only [hv]
      by_cases hcond1 : (v = true) ∧ ¬ prev.visible = true
      · rw [if_pos hcond1]
        constructor
        · show ((st.layerOrder.erase id) ++ [id]).Nodup
          rw [List.nodup_append]
          refine ⟨hnd.erase id, List.nodup_singleton id, ?_⟩
          intro x hx hx1
          rw [List.mem_singleton] at hx1
          subst hx1
          exact ((List.Nodup.mem_erase_iff hnd).mp hx).1 rfl
        · intro x hx
          rw [addToLayerOrder, List.mem_append] at hx
          rcases hx with hx | hx
          · have hxne : x ≠ id := ((List.Nodup.mem_erase_iff hnd).mp hx).1
            have hxmem : x ∈ st.layerOrder := List.erase_subset _ _ hx
            have := hvis x hxmem
            simpa [visibleIn, jsGet_jsSet_ne _ _ _ _ hxne] using this
          · rw [List.mem_singleton] at hx
            subst hx
            simp [visibleIn, jsGet_jsSet_same, assignLayer, hv, hcond1.1]
      · rw [if_neg hcond1]
        by_cases hcond2 : (¬ v = true) ∧ prev.visible = true
        · rw [if_pos hcond2]
          constructor
          · exact hnd.erase id
          · intro x hx
            have hxne : x ≠ id := ((List.Nodup.mem_erase_iff hnd).mp hx).1
            have hxmem : x ∈ st.layerOrder :=
              List.erase_subset _ _ (by simpa [removeFromLayerOrder] using hx)
            have := hvis x hxmem
            simpa [visibleIn, jsGet_jsSet_ne _ _ _ _ hxne] using this
        · rw [if_neg hcond2]
          refine ⟨hnd, ?_⟩
          intro x hx
          by_cases hxid : x = id
          · subst hxid
            have hvtrue : v = true := by
              rcases Bool.eq_false_or_eq_true v with hvt | hvf
              · exact hvt
              · exfalso
                exact hcond2 ⟨by simp [hvf], hprevvis hx⟩
            simp [visibleIn, jsGet_jsSet_same, assignLayer, hv, hvtrue]
          · have := hvis x hx
            simpa [visibleIn, jsGet_jsSet_ne _ _ _ _ hxid] using this

theorem applyStoreOp_goodOrder {st : Store} (h : goodOrder st) (op : StoreOp) :
    goodOrder (applyStoreOp st op) := by
  cases op with
  | setOv id p =>
    cases hok : Store.setOverlay st id p with
    | ok st' =>
      simpa [applyStoreOp, hok] using setOverlay_goodOrder h hok
    | error e => simpa [applyStoreOp, hok] using h
  | setBase id => exact ⟨h.1, h.2⟩
  | setGrp id p =>
    cases hok : Store.setGroup st id p with
    | ok st' =>
      unfold Store.setGroup at hok
      cases hprev : jsGet st.groupStates id with
      | none => simp [hprev] at hok
      | some prev =>
        simp only [hprev, Except.ok.injEq] at hok
        subst hok
        simpa [applyStoreOp, Store.setGroup, hprev] using h
    | error e => simpa [applyStoreOp, hok] using h
  | setVp p => exact ⟨h.1, h.2⟩

theorem applyStoreOps_goodOrder {st : Store} (h : goodOrder st)
    (ops : List StoreOp) : goodOrder (applyStoreOps st ops) := by
  induction ops generalizing st with
  | nil => exact h
  | cons op rest ih => exact ih (applyStoreOp_goodOrder h op)

theorem setOverlay_roundTrip {st : Store} {id : String} {cur : LayerState}
    (hcur : jsGet st.overlayStates id = some cur)
    (hnd : st.layerOrder.Nodup) :
    ∀ st1 st2, Store.setOverlay st id { visible := some true } = .ok st1 →
      Store.setOverlay st1 id { visible := some false } = .ok st2 →
      id ∉ st2.layerOrder := by
  intro st1 st2 h1 h2
  unfold Store.setOverlay at h1 h2
  by_cases hc : cur.visible = true
  · simp [hcur, hc, assignLayer] at h1
    subst h1
    simp [jsGet_jsSet_same, assignLayer] at h2
    subst h2
    show id ∉ removeFromLayerOrder st.layerOrder id
    intro hmem
    exact ((List.Nodup.mem_erase_iff hnd).mp hmem).1 rfl
  · simp [hcur, hc, assignLayer] at h1
    subst h1
    simp [jsGet_jsSet_same, assignLayer] at h2
    subst h2
    have hni : id ∉ st.layerOrder.erase id := by
      intro hmem
      exact ((List.Nodup.mem_erase_iff hnd).mp hmem).1 rfl
    show id ∉ ((st.layerOrder.erase id) ++ [id]).erase id
    rw [erase_append_singleton hni]
    exact hni

/-- C3 (amended): Layer Order holds no id more than once and only ids of
currently visible overlays in every state reachable from a freshly
constructed, unpersisted store through the State Store's own setters
(`setOverlay`, `setBase`, `setGroup`, `setViewport`); in particular, setting
an overlay visible true and then visible false leaves its id absent from
Layer Order.  The reorder operations (`reorderLayers`, exposed through
`bringOverlayToFront`/`sendOverlayToBack`) are not invariant-preserving: they
can insert the id of a non-visible overlay (see the counterexample). -/
theorem layerOrder_nodup_visible_invariant (opts : Options) :
    (∀ ops : List StoreOp, goodOrder (applyStoreOps (Store.init opts) ops)) ∧
    (∀ st : Store, ∀ id : String, ∀ cur : LayerState, ∀ st1 st2 : Store,
      jsGet st.overlayStates id = some cur → st.layerOrder.Nodup →
      Store.setOverlay st id { visible := some true } = .ok st1 →
      Store.setOverlay st1 id { visible := some false } = .ok st2 →
      id ∉ st2.layerOrder) := by
  constructor
  · intro ops
    refine applyStoreOps_goodOrder ⟨List.nodup_nil, ?_⟩ ops
    intro x hx
    cases hx
  · intro st id cur st1 st2 hcur hnd h1 h2
    exact setOverlay_roundTrip hcur hnd st1 st2 h1 h2

/-- Counterexample to C3 as stated: `bringOverlayToFront`
(layersControl.js:388, backed by the store's public `reorderLayers`) pushes
the id of a hidden overlay onto Layer Order, reaching a state in which the
order contains an id that is not currently visible. -/
theorem layerOrder_hiddenId_counterexample :
    "a" ∈ (bringOverlayToFront
      (Store.init { overlays := [{ id := "a" }] }) "a").layerOrder ∧
    visibleIn (bringOverlayToFront
      (Store.init { overlays := [{ id := "a" }] }) "a").overlayStates "a" = false ∧
    ¬ goodOrder (bringOverlayToFront
      (Store.init { overlays := [{ id := "a" }] }) "a") := by
  refine ⟨by decide, by decide, ?_⟩
  intro h
  exact absurd (h.2 "a" (by decide)) (by decide)

/-- Witness for the amended C3: the invariant after a concrete show/hide
round trip, and the id's absence from the concrete final order. -/
theorem layerOrder_nodup_visible_invariant_holds :
    goodOrder (applyStoreOps (Store.init { overlays := [{ id := "a" }] })
      [.setOv "a" { visible := some true }, .setOv "a" { visible := some false }]) ∧
    "a" ∉ ({ currentBaseId := none, previousBaseId := none,
             overlayStates := [("a", { visible := false, opacity := 1 })],
             groupStates := [], layerOrder := [],
             viewportState := {}, previousViewportState := {} : Store }).layerOrder := by
  have h := layerOrder_nodup_visible_invariant { overlays := [{ id := "a" }] }
  refine ⟨h.1 _, ?_⟩
  exact h.2 (Store.init { overlays := [{ id := "a" }] }) "a"
    { visible := false, opacity := 1 }
    { currentBaseId := none, previousBaseId := none,
      overlayStates := [("a", { visible := true, opacity := 1 })],
      groupStates := [], layerOrder := ["a"],
      viewportState := {}, previousViewportState := {} }
    { currentBaseId := none, previousBaseId := none,
      overlayStates := [("a", { visible := false, opacity := 1 })],
      groupStates := [], layerOrder := [],
      viewportState := {}, previousViewportState := {} }
    rfl List.nodup_nil rfl rfl

/-- A subscribed handler: it may return normally or throw with a message.
The payload type is abstract. -/
def Handler (π : Type) : Type := π → Except String Unit

/-- The message of a throw, `none` for a normal return. -/
def errOf (r : Except String Unit) : Option String :=
  match r with
  | .ok _ => none
  | .error m => some m

/-- The body of `EventEmitter.emit`'s forEach (main.js:29-35): invoke the
handler inside try/catch, recording its index and (when it threw) the logged
message; the throw is absorbed, never propagated. -/
def emitStep {π : Type} (d : π) (acc : Nat × List (Nat × Option String))
    (h : Handler π) : Nat × List (Nat × Option String) :=
  (acc.1 + 1, acc.2 ++ [(acc.1, errOf (h d))])

/-- `EventEmitter.emit` over the handler list registered for one event name
(main.js:27-37): a synchronous forEach.  The result is the invocation trace:
which handlers ran, in which order, and which of them threw.  The function is
total — no handler exception reaches the publisher. -/
def runHandlers {π : Type} (hs : List (Handler π)) (d : π) :
    List (Nat × Option String) :=
  (hs.foldl (emitStep d) (0, [])).2

/-- `EventEmitter.on` (main.js:9-15): create the event's handler array on
first use, then push — so the stored order is subscription order. -/
def EventEmitter.on {π : Type} (em : List (String × List (Handler π)))
    (event : String) (h : Handler π) : List (String × List (Handler π)) :=
  match jsGet em event with
  | none => jsSet em event [h]
  | some hs => jsSet em event (hs ++ [h])

/-- `EventEmitter.emit` dispatch on the event name: no handler array, no
invocation. -/
def EventEmitter.emit {π : Type} (em : List (String × List (Handler π)))
    (event : String) (d : π) : List (Nat × Option String) :=
  match jsGet em event with
  | none => []
  | some hs => runHandlers hs d

/-- The invocation trace, written by recursion from a start index. -/
def runSpec {π : Type} (hs : List (Handler π)) (d : π) (n : Nat) :
    List (Nat × Option String) :=
  match hs with
  | [] => []
  | h :: t => (n, errOf (h d)) :: runSpec t d (n + 1)

theorem runHandlers_foldl_spec {π : Type} (hs : List (Handler π)) (d : π) :
    ∀ n acc, (hs.foldl (emitStep d) (n, acc)).2 = acc ++ runSpec hs d n := by
  induction hs with
  | nil => intro n acc; simp [runSpec]
  | cons h t ih =>
    intro n acc
    rw [List.foldl_cons]
    show (t.foldl (emitStep d) (n + 1, acc ++ [(n, errOf (h d))])).2 = _
    rw [ih]
    simp [runSpec]

theorem runHandlers_eq_runSpec {π : Type} (hs : List (Handler π)) (d : π) :
    runHandlers hs d = runSpec hs d 0 := by
  unfold runHandlers
  rw [runHandlers_foldl_spec]
  simp

theorem runSpec_map_fst {π : Type} (hs : List (Handler π)) (d : π) :
    ∀ n, (runSpec hs d n).map Prod.fst = List.range' n hs.length := by
  induction hs with
  | nil => intro n; simp [runSpec]
  | cons h t ih => intro n; simp [runSpec, List.range', ih]

theorem runSpec_get {π : Type} (hs : List (Handler π)) (d : π) :
    ∀ n i h, hs.get? i = some h →
      (runSpec hs d n).get? i = some (n + i, errOf (h d)) := by
  induction hs with
  | nil => intro n i h hg; cases hg
  | cons h0 t ih =>
    intro n i h hg
    cases i with
    | zero =>
      simp only [List.get?] at hg
      cases hg
      simp [runSpec]
    | succ j =>
      simp only [List.get?] at hg
      have := ih (n + 1) j h hg
      simpa [runSpec, Nat.add_assoc, Nat.add_comm 1 j] using this

/-- C8: `emit` invokes every handler registered for the event name,
synchronously and in subscription (insertion) order, and a handler that
throws does not prevent the remaining handlers from running: the trace lists
all indices `0..n-1` in order, the i-th entry reflects exactly the i-th
handler's own outcome (its logged message when it threw), and the emitter —
being a total function into a trace — propagates no exception to the
publisher.  Subscription order is insertion order because `on` appends. -/
theorem emit_runsAll_inOrder_catching {π : Type}
    (hs : List (Handler π)) (d : π) :
    (runHandlers hs d).length = hs.length ∧
    (runHandlers hs d).map Prod.fst = List.range hs.length ∧
    (∀ i h, hs.get? i = some h →
      (runHandlers hs d).get? i = some (i, errOf (h d))) ∧
    (∀ em : List (String × List (Handler π)), ∀ event : String,
      jsGet em event = some hs → EventEmitter.emit em event d = runHandlers hs d) ∧
    (∀ em : List (String × List (Handler π)), ∀ event : String, ∀ h : Handler π,
      jsGet (EventEmitter.on em event h) event =
        some ((jsGet em event).getD [] ++ [h])) := by
  refine ⟨?_, ?_, ?_, ?_, ?_⟩
  · rw [runHandlers_eq_runSpec]
    have := runSpec_map_fst hs d 0
    have hlen := congrArg List.length this
    simpa using hlen
  · rw [runHandlers_eq_runSpec, runSpec_map_fst, List.range_eq_range']
  · intro i h hg
    rw [runHandlers_eq_runSpec]
    simpa using runSpec_get hs d 0 i h hg
  · intro em event hget
    simp [EventEmitter.emit, hget]
  · intro em event h
    unfold EventEmitter.on
    cases hget : jsGet em event with
    | none => simp [jsGet_jsSet_same, hget]
    | some hs0 => simp [jsGet_jsSet_same, hget]

/-- Witness for C8: two handlers, the first throwing; both run, in order, the
throw is logged at index 0, and the second handler still runs at index 1. -/
theorem emit_runsAll_inOrder_catching_holds :
    (runHandlers [fun _ : Nat => Except.error "boom1",
                  fun _ : Nat => Except.ok ()] 7).get? 0 =
      some (0, some "boom1") ∧
    (runHandlers [fun _ : Nat => Except.error "boom1",
                  fun _ : Nat => Except.ok ()] 7).get? 1 = some (1, none) := by
  refine ⟨?_, ?_⟩
  · exact (emit_runsAll_inOrder_catching
      [fun _ : Nat => Except.error "boom1", fun _ : Nat => Except.ok ()] 7).2.2.1
      0 (fun _ : Nat => Except.error "boom1") rfl
  · exact (emit_runsAll_inOrder_catching
      [fun _ : Nat => Except.error "boom1", fun _ : Nat => Except.ok ()] 7).2.2.1
      1 (fun _ : Nat => Except.ok ()) rfl

/-- A heap of the mutable per-overlay / per-group `{visible, opacity}` record
objects, addressed by allocation id.  JS records are reference values: the
store's maps, and any snapshot produced from them, hold addresses; writing
through any alias updates the one shared record. -/
structure RecHeap where
  recs : List (Nat × LayerState)
deriving Repr, DecidableEq

/-- The store's object graph relevant to `getState`: `overlayStates` and
`groupStates` bind ids to record addresses. -/
structure StoreRefs where
  baseId : Option String
  overlays : List (String × Nat)
  groups : List (String × Nat)
  layerOrder : List String
deriving Repr, DecidableEq

/-- The object returned by `StateStore.getState` (main.js:175-189).  The
spreads `{...this.overlayStates}` / `{...this.groupStates}` and the array
copy `[...this.layerOrder]` create fresh top-level containers, but the
entries copied into `overlays`/`groups` are the record addresses themselves:
the nested `{visible, opacity}` records are shared with the store. -/
structure Snapshot where
  baseId : Option String
  overlays : List (String × Nat)
  groups : List (String × Nat)
  layerOrder : List String
deriving Repr, DecidableEq

/-- `StateStore.getState` on the reference-level store. -/
def getStateRefs (s : StoreRefs) : Snapshot :=
  { baseId := s.baseId, overlays := s.overlays, groups := s.groups,
    layerOrder := s.layerOrder }

/-- In-place mutation of the record at an address
(`snapshot.overlays[id].opacity = v` style). -/
def heapWrite (h : RecHeap) (addr : Nat) (ls : LayerState) : RecHeap :=
  { recs := jsSet h.recs addr ls }

/-- The overlay state the Store observes for an id: dereference the record
its own map points at. -/
def storeReadsOverlay (h : RecHeap) (s : StoreRefs) (id : String) :
    Option LayerState :=
  (jsGet s.overlays id).bind (fun addr => jsGet h.recs addr)

/-- Counterexample to C6 as stated: the snapshot returned by `getState` binds
overlay `a` to the same record address as the store, and overwriting that
record's opacity through the snapshot changes the state the Store
subsequently reads — the copy is not defensive for the nested records. -/
theorem getState_nestedMutation_leaks_counterexample :
    jsGet (getStateRefs
      { baseId := none, overlays := [("a", 0)], groups := [], layerOrder := [] }).overlays
      "a" = some 0 ∧
    storeReadsOverlay { recs := [(0, { visible := false, opacity := 1 })] }
      { baseId := none, overlays := [("a", 0)], groups := [], layerOrder := [] }
      "a" = some { visible := false, opacity := 1 } ∧
    storeReadsOverlay
      (heapWrite { recs := [(0, { visible := false, opacity := 1 })] } 0
        { visible := false, opacity := 0 })
      { baseId := none, overlays := [("a", 0)], groups := [], layerOrder := [] }
      "a" = some { visible := false, opacity := 0 } ∧
    storeReadsOverlay
      (heapWrite { recs := [(0, { visible := false, opacity := 1 })] } 0
        { visible := false, opacity := 0 })
      { baseId := none, overlays := [("a", 0)], groups := [], layerOrder := [] }
      "a" ≠
    storeReadsOverlay { recs := [(0, { visible := false, opacity := 1 })] }
      { baseId := none, overlays := [("a", 0)], groups := [], layerOrder := [] }
      "a" := by
  refine ⟨by decide, by decide, by decide, by decide⟩

/-- C6 (amended): `getState` returns a shallow copy: its top-level containers
are fresh, but the nested per-overlay and per-group records are shared by
reference with the store — the snapshot's `overlays`/`groups` carry exactly
the store's record addresses, and an in-place write through such an address
changes the state the Store reads afterwards. -/
theorem getState_shallowCopy_sharing (s : StoreRefs) :
    (getStateRefs s).overlays = s.overlays ∧
    (getStateRefs s).groups = s.groups ∧
    (∀ h : RecHeap, ∀ id : String, ∀ addr : Nat, ∀ r ls : LayerState,
      jsGet (getStateRefs s).overlays id = some addr →
      jsGet h.recs addr = some r →
      storeReadsOverlay (heapWrite h addr ls) s id = some ls ∧
      (ls ≠ r →
        storeReadsOverlay (heapWrite h addr ls) s id ≠ storeReadsOverlay h s id)) := by
  refine ⟨rfl, rfl, ?_⟩
  intro h id addr r ls haddr hr
  have haddr' : jsGet s.overlays id = some addr := haddr
  constructor
  · simp [storeReadsOverlay, haddr', heapWrite, jsGet_jsSet_same]
  · intro hne
    simp [storeReadsOverlay, haddr', heapWrite, jsGet_jsSet_same, hr]
    exact hne

/-- Witness for the amended C6 at the concrete one-overlay store. -/
theorem getState_shallowCopy_sharing_holds :
    storeReadsOverlay
      (heapWrite { recs := [(0, { visible := false, opacity := 1 })] } 0
        { visible := true, opacity := 1 })
      { baseId := none, overlays := [("a", 0)], groups := [], layerOrder := [] }
      "a" = some { visible := true, opacity := 1 } := by
  exact ((getState_shallowCopy_sharing
    { baseId := none, overlays := [("a", 0)], groups := [], layerOrder := [] }).2.2
    { recs := [(0, { visible := false, opacity := 1 })] } "a" 0
    { visible := false, opacity := 1 } { visible := true, opacity := 1 }
    rfl rfl).1

/-- Whether an operation raised (the `.error` case of the embedding). -/
def threw {α : Type} (x : Except String α) : Bool :=
  match x with
  | .error _ => true
  | .ok _ => false

/-- Counterexample to C7 as stated: the State Store's public setters invoked
with an unconfigured overlay id do throw — `setOverlay` reaches
`Object.assign(undefined, state)` and `setOverlayVisibility` assigns a
property of `undefined`, both TypeErrors — instead of warning and returning. -/
theorem unknownId_storeSetter_throws_counterexample :
    threw (Store.setOverlay (Store.init { overlays := [{ id := "a" }] }) "ghost"
      { visible := some true }) = true ∧
    threw (StateManager.setOverlayVisibility
      (Store.init { overlays := [{ id := "a" }] }) "ghost" true) = true := by
  refine ⟨by decide, by decide⟩

/-- C7 (amended): the Facade's public operations guard unknown ids —
`toggleOverlay` with an unconfigured overlay id logs a warning, leaves the
store and the manager unchanged, and returns without throwing — but the
State Store's own setters (`setOverlay`, `setOverlayVisibility`) throw a
TypeError when given an id with no state entry. -/
theorem unknownId_facadeWarns_storeThrows :
    (∀ opts : Options, ∀ loader : LoaderEnv, ∀ st : Store, ∀ mgr : MgrState,
      ∀ id : String, ∀ visible : Option Bool, ∀ isUser : Bool,
      opts.overlays.find? (fun o => o.id = id) = none →
      LayersControl.toggleOverlay opts loader st mgr id visible isUser =
        .ok (st, mgr, ["overlay-not-found:" ++ id])) ∧
    (∀ st : Store, ∀ id : String, ∀ p : LayerPatch,
      jsGet st.overlayStates id = none → threw (Store.setOverlay st id p) = true) ∧
    (∀ st : Store, ∀ id : String, ∀ v : Bool,
      jsGet st.overlayStates id = none →
      threw (StateManager.setOverlayVisibility st id v) = true) := by
  refine ⟨?_, ?_, ?_⟩
  · intro opts loader st mgr id visible isUser hnone
    simp [LayersControl.toggleOverlay, hnone]
  · intro st id p hnone
    simp [Store.setOverlay, hnone, threw]
  · intro st id v hnone
    simp [StateManager.setOverlayVisibility, hnone, threw]

/-- Witness for the amended C7 at concrete inputs. -/
theorem unknownId_facadeWarns_storeThrows_holds :
    LayersControl.toggleOverlay { overlays := [{ id := "a" }] }
      (fun _ _ => .returns none)
      (Store.init { overlays := [{ id := "a" }] }) {} "ghost" none false =
      .ok (Store.init { overlays := [{ id := "a" }] }, {},
           ["overlay-not-found:" ++ "ghost"]) ∧
    threw (Store.setOverlay (Store.init { overlays := [{ id := "a" }] }) "ghost"
      { opacity := some (1/2) }) = true := by
  constructor
  · exact unknownId_facadeWarns_storeThrows.1 { overlays := [{ id := "a" }] }
      (fun _ _ => .returns none) (Store.init { overlays := [{ id := "a" }] })
      {} "ghost" none false (by decide)
  · exact unknownId_facadeWarns_storeThrows.2.1
      (Store.init { overlays := [{ id := "a" }] }) "ghost"
      { opacity := some (1/2) } (by decide)
